import Mathlib

/-!
Verification of the build-order environment (`src/env.py`).

The simulation logic of `env.py` is embedded shallowly below.  `env.py`
imports its data types (`Building`, `Worker`, `Resource`, `Assignment`,
`CompoundAction`, ...) from a module `data_types` that is not part of the
given sources; those parts are modelled from the specification and each such
definition is marked `Modelled from the spec:` in its doc comment.  Everything
else is translated directly from `src/env.py`.
-/

namespace PpoEnv

/-- Modelled from the spec: the two resources (`data_types.Resource` is
missing from the sources). -/
inductive Resource where
  | minerals
  | gas
deriving DecidableEq, Repr

/-- The fixed iteration order of `for resource in Resource`. -/
def resourceList : List Resource := [Resource.minerals, Resource.gas]

/-- Modelled from the spec: buildings form a closed tagged variant with the
distinguished subtypes Nexus (home base) and Assimilator (gas extraction);
`other n` stands for the remaining concrete building types of the missing
`data_types.Buildings` enumeration. -/
inductive Building where
  | nexus
  | assimilator
  | other : Nat → Building
deriving DecidableEq, Repr

/-- Modelled from the spec: "Worker (one of a small fixed enumeration)"
(`data_types.Worker` is missing from the sources). -/
inductive Worker where
  | w1
  | w2
  | w3
deriving DecidableEq, Repr

/-- The fixed iteration order of `for worker_id in Worker`. -/
def workerList : List Worker := [Worker.w1, Worker.w2, Worker.w3]

/-- A grid coordinate, `Coord = Tuple[int, int]`. -/
abbrev Coord := Int × Int

/-- Modelled from the spec: an assignment is either "gather resource R"
(`env.initial_assignment` returns `Resource.MINERALS`, so a bare resource is
an assignment) or a `BuildOrder` carrying a building and a target location. -/
inductive Assignment where
  | gather : Resource → Assignment
  | buildOrder : Building → Coord → Assignment
deriving DecidableEq, Repr

/-- `isinstance(assignment, BuildOrder)`. -/
def Assignment.isBuildOrder : Assignment → Bool
  | .gather _ => false
  | .buildOrder _ _ => true

/-- Modelled from the spec: a resolved per-tick worker action is either a
single-step `Movement` delta or a `Building` construction attempt. -/
inductive WorkerAction where
  | move : Int × Int → WorkerAction
  | build : Building → WorkerAction
deriving DecidableEq, Repr

/-- One instruction line: `Line(required, building)`. -/
structure Line where
  required : Bool
  building : Building
deriving DecidableEq, Repr

/-! ### The building-position map

`building_positions : Dict[Coord, Building]` is embedded as an association
list with Python dict semantics: assignment to an existing key replaces the
value in place, assignment to a fresh key appends at the end. -/

/-- `building_positions.get(c, None)`. -/
def lookupB : List (Coord × Building) → Coord → Option Building
  | [], _ => none
  | p :: ps, c => if p.1 = c then some p.2 else lookupB ps c

/-- `building_positions[c] = b` (Python dict assignment). -/
def insertB : List (Coord × Building) → Coord → Building → List (Coord × Building)
  | [], c, b => [(c, b)]
  | p :: ps, c, b => if p.1 = c then (c, b) :: ps else p :: insertB ps c b

/-- Occurrence count of a building among a list of buildings (the multiset
view used by `Counter`). -/
def countB (b : Building) : List Building → Nat
  | [] => 0
  | x :: xs => (if x = b then 1 else 0) + countB b xs

/-- `success = not (required - Counter(building_positions.values()))`:
the multiset of required buildings is contained in the standing buildings. -/
def successOf (required : List Building) (m : List (Coord × Building)) : Bool :=
  required.all fun b => decide (countB b required ≤ countB b (m.map Prod.snd))

/-- The per-tick building destruction of `state_generator` (src/env.py
lines 619-628): every non-Nexus building whose fresh uniform draw is below
`destroy_building_prob` is removed from `building_positions`. -/
def destroyStep (p : ℚ) (draw : Coord → ℚ) : List (Coord × Building) → List (Coord × Building)
  | [] => []
  | cb :: rest =>
      if draw cb.1 < p ∧ cb.2 ≠ Building.nexus then destroyStep p draw rest
      else cb :: destroyStep p draw rest

/-- The coordinates of the standing Nexuses (src/env.py lines 654-656). -/
def nexusPositionsOf (m : List (Coord × Building)) : List Coord :=
  (m.filter fun cb => decide (cb.2 = Building.nexus)).map Prod.fst

/-! ### Construction admission -/

/-- `bool(building.cost.as_counter() - resources)`: the Counter difference is
nonempty iff some resource count falls short of the cost. -/
def insufficientFor (cost : Building → Resource → Nat) (resources : Resource → Nat)
    (b : Building) : Bool :=
  resourceList.any fun r => decide (resources r < cost b r)

/-- `Env.building_allowed` (src/env.py lines 725-746), translated literally.
The call site (line 703) passes `building_positions=[*building_positions]`,
i.e. the KEYS of the `Dict[Coord, Building]`, matching the parameter's
`List[Coord]` annotation.  Hence the Python membership test
`dependency not in [*building_positions, None]` compares the optional
Building `dependency` against coordinates and against `None`; a Building
instance is never equal to a coordinate pair, so the membership holds exactly
when `dependency` is `None`, which is what the translation computes. -/
def building_allowed (building : Building) (dependency : Option Building)
    (building_positions : List Coord) (insufficient_resources : Bool)
    (gasPos mineralsPos assignment_location : Coord) : Bool :=
  if insufficient_resources
      || decide (assignment_location ∈ building_positions)
      || !dependency.isNone then
    false
  else if building = Building.assimilator then
    decide (assignment_location = gasPos)
  else
    !(decide (assignment_location = gasPos) || decide (assignment_location = mineralsPos))

/-- Modelled from the spec: the admission rule as the specification states it
("resources sufficient (cost at most the available resources, as a multiset
comparison), the target tile is not already occupied by a building, its
dependency (if any) is already standing, and — if the building is an
Assimilator — the target tile is exactly the gas tile, else the target tile
is neither the gas nor the minerals tile").  It differs from the source's
`building_allowed` only in testing the dependency against the standing
BUILDINGS rather than against the dict keys. -/
def building_allowed_spec (building : Building) (dependency : Option Building)
    (building_positions : List (Coord × Building)) (insufficient_resources : Bool)
    (gasPos mineralsPos assignment_location : Coord) : Bool :=
  if insufficient_resources
      || decide (assignment_location ∈ building_positions.map Prod.fst)
      || !(match dependency with
           | none => true
           | some d => decide (d ∈ building_positions.map Prod.snd)) then
    false
  else if building = Building.assimilator then
    decide (assignment_location = gasPos)
  else
    !(decide (assignment_location = gasPos) || decide (assignment_location = mineralsPos))

/-- `Env.gathered_resource` (src/env.py lines 713-719). -/
def gathered_resource (building_positions : List (Coord × Building))
    (rpos : Resource → Coord) (resource : Resource) (worker_position : Coord) : Bool :=
  decide (rpos resource = worker_position)
    && (!decide (resource = Resource.gas)
        || decide (lookupB building_positions worker_position = some Building.assimilator))

/-! ### The worker assignment resolver (modelled from the spec)

`Assignment.action` lives in the missing `data_types` module.  The spec
(section 4.2): a gather assignment paths toward the target resource if not at
it, else toward the nearest Nexus to deposit; a construct assignment "yields
the target Building if standing at the target location, else a Movement
toward it"; movement is "always a single-step axis-aligned delta toward the
target (no diagonal ... direct Manhattan approach)". -/

/-- The sign of the step from `a` toward `b`. -/
def signTo (a b : Int) : Int := if a < b then 1 else if b < a then -1 else 0

/-- Modelled from the spec: a single-step axis-aligned delta toward the
target. -/
def moveToward (cur tgt : Coord) : Int × Int :=
  if cur.1 = tgt.1 then (0, signTo cur.2 tgt.2) else (signTo cur.1 tgt.1, 0)

/-- Manhattan distance between two coordinates. -/
def manhattan (a b : Coord) : Nat := (a.1 - b.1).natAbs + (a.2 - b.2).natAbs

/-- Modelled from the spec: the nearest Nexus position (ties broken toward
the front of the list; the spec fixes no tie-break). -/
def nearestNexus (cur : Coord) : List Coord → Coord
  | [] => cur
  | [c] => c
  | c :: rest =>
      let best := nearestNexus cur rest
      if manhattan cur c ≤ manhattan cur best then c else best

/-- Modelled from the spec:
`assignment.action(current_position, positions, nexus_positions)`. -/
def Assignment.action (a : Assignment) (cur : Coord) (rpos : Resource → Coord)
    (nexuses : List Coord) : WorkerAction :=
  match a with
  | .gather r =>
      if cur = rpos r then .move (moveToward cur (nearestNexus cur nexuses))
      else .move (moveToward cur (rpos r))
  | .buildOrder b loc =>
      if cur = loc then .build b else .move (moveToward cur loc)

/-- `assignment.location`.  Only a `BuildOrder` has a location; a gather
assignment never resolves to a `Building` action (`Assignment.action` on a
gather is always a `move`), so the gather branch is unreachable at the one
use site and is given the worker's own position. -/
def assignmentLocation : Assignment → Coord → Coord
  | .buildOrder _ l, _ => l
  | .gather _, wp => wp

/-! ### The turn simulator (`Env.state_generator`, src/env.py lines 593-711) -/

/-- The per-episode configuration read by the turn simulator: building costs
and the dependency map (from `data_types` / `build_dependencies`), the
multiset of required buildings (from the required lines), the fixed resource
positions, and `destroy_building_prob`. -/
structure Cfg where
  cost : Building → Resource → Nat
  deps : Building → Option Building
  required : List Building
  rpos : Resource → Coord
  destroyProb : ℚ

/-- The mutable loop state of `state_generator`: `building_positions`,
worker positions, `resources`, `assignments`, `ptr`, `time_remaining`. -/
structure SimState where
  buildings : List (Coord × Building)
  wpos : Worker → Coord
  resources : Resource → Nat
  assignments : Worker → Assignment
  ptr : Nat
  timeRemaining : Int

/-- Modelled from the spec: the payload of a complete (`is_op`) compound
action — the acting worker, its new assignment, and the pointer update
(`data_types.CompoundAction` is missing from the sources). -/
structure CompoundOp where
  worker : Worker
  assignment : Assignment
  ptr : Nat

/-- The external inputs consumed by one tick: the fresh per-coordinate
uniform draws used by probabilistic destruction, and the received complete
compound action. -/
structure TickInput where
  destroyDraw : Coord → ℚ
  act : CompoundOp

/-- Lines 668-670: `ptr = action.ptr; time_remaining -= 1;
assignments[action.worker()] = action.assignment()`. -/
def applyAction (act : CompoundOp) (s : SimState) : SimState :=
  { s with
    ptr := act.ptr
    timeRemaining := s.timeRemaining - 1
    assignments := fun w => if w = act.worker then act.assignment else s.assignments w }

/-- Resolution of a single worker's effect (lines 677-711).  A movement
updates the worker's position and, if it lands on a Nexus, increments every
resource the worker was gathering from its pre-move tile; a construction
attempt places the building at the worker's tile and deducts its cost iff
`building_allowed` admits it, and otherwise changes nothing. -/
def resolveWorker (cfg : Cfg) (nexusPositions : List Coord) (s : SimState)
    (w : Worker) : SimState :=
  let wp := s.wpos w
  match (s.assignments w).action wp cfg.rpos nexusPositions with
  | .move d =>
      let np : Coord := (wp.1 + d.1, wp.2 + d.2)
      let s1 : SimState := { s with wpos := fun x => if x = w then np else s.wpos x }
      if lookupB s1.buildings np = some Building.nexus then
        { s1 with
          resources := fun r =>
            s1.resources r + (if gathered_resource s1.buildings cfg.rpos r wp then 1 else 0) }
      else s1
  | .build b =>
      if building_allowed b (cfg.deps b) (s.buildings.map Prod.fst)
          (insufficientFor cfg.cost s.resources b)
          (cfg.rpos Resource.gas) (cfg.rpos Resource.minerals)
          (assignmentLocation (s.assignments w) wp) then
        { s with
          buildings := insertB s.buildings wp b
          resources := fun r => s.resources r - cfg.cost b r }
      else s

/-- Lines 674-676: workers are resolved in enumeration order, stably sorted
by `isinstance(assignment, BuildOrder)` — all gatherers first, then all
builders ("collect resources first"). -/
def resolutionOrder (s : SimState) : List Worker :=
  (workerList.filter fun w => !(s.assignments w).isBuildOrder)
    ++ workerList.filter fun w => (s.assignments w).isBuildOrder

/-- Resolution of all workers for one tick.  `nexus_positions` is the list
computed from `building_positions` before resolution starts (line 654) and
stays fixed during the tick, while positions, resources and buildings are
read live. -/
def resolveAll (cfg : Cfg) (s : SimState) : SimState :=
  (resolutionOrder s).foldl (resolveWorker cfg (nexusPositionsOf s.buildings)) s

/-- One full tick of the turn simulator, from one yielded snapshot to the
next: apply the received action, resolve all workers, then apply the next
loop iteration's probabilistic destruction (the snapshot yielded by
`state_generator` is built after the destruction step at the top of the
loop). -/
def tick (cfg : Cfg) (inp : TickInput) (s : SimState) : SimState :=
  let s1 := resolveAll cfg (applyAction inp.act s)
  { s1 with buildings := destroyStep cfg.destroyProb inp.destroyDraw s1.buildings }

/-- Iterated ticks: the snapshot after consuming a list of tick inputs. -/
def runSim (cfg : Cfg) (s : SimState) : List TickInput → SimState
  | [] => s
  | i :: is => runSim cfg (tick cfg i s) is

/-- `Env.done_generator` (src/env.py lines 224-231):
`state.success or not state.time_remaining` — a Python int is falsy exactly
when it is zero. -/
def doneOf (cfg : Cfg) (s : SimState) : Bool :=
  successOf cfg.required s.buildings || decide (s.timeRemaining = 0)

/-- The action-dispatch step of `Env.srti_generator` (src/env.py lines
579-587): a complete (`is_op`) compound action advances the turn simulator;
an incomplete one leaves the state untouched in training mode, while in
evaluation mode (`self.evaluating`) it decrements `time_remaining` by one
without advancing the simulator. -/
def srtiStep (evaluating : Bool) (cfg : Cfg) (inp : TickInput) (isOp : Bool)
    (s : SimState) : SimState :=
  if isOp then tick cfg inp s
  else if evaluating then { s with timeRemaining := s.timeRemaining - 1 }
  else s

/-! ### Concrete sample objects used by counterexamples and witnesses -/

/-- A sample configuration: every building costs one of each resource, no
dependencies, nothing required, resources far away at (9, 9), no
destruction. -/
def sampleCfg : Cfg :=
  ⟨fun _ _ => 1, fun _ => none, [], fun _ => (9, 9), 0⟩

/-- A sample simulator state: one Nexus at the origin, all workers at the
origin gathering minerals, no resources, five ticks remaining. -/
def sampleState : SimState :=
  ⟨[((0, 0), Building.nexus)], fun _ => (0, 0), fun _ => 0,
    fun _ => Assignment.gather Resource.minerals, 0, 5⟩

/-- A sample tick input: destruction draws of one everywhere (any
nonnegative draw behaves the same under a zero destruction probability), the
acting worker re-assigned to gather minerals. -/
def sampleInput : TickInput :=
  ⟨fun _ => 1, ⟨Worker.w1, Assignment.gather Resource.minerals, 0⟩⟩

/-! ### Claim C1 -/

/-- Claim C1 (code bug).  Concrete construction attempt: build `other 0`
(dependency `other 1`) at the unoccupied non-resource tile (0, 0), with
sufficient resources, while the dependency `other 1` is standing at (1, 1).
The specification's admission rule accepts the attempt, but the source's
`building_allowed` rejects it: the call site passes the coordinate keys of
`building_positions`, so the test `dependency not in [*building_positions,
None]` compares the dependency building against coordinates and rejects
every attempt whose dependency is not `None`. -/
theorem c1_dependency_gate_bug :
    building_allowed_spec (Building.other 0) (some (Building.other 1))
        [((1, 1), Building.other 1)] false (5, 5) (6, 6) (0, 0) = true
    ∧ building_allowed (Building.other 0) (some (Building.other 1))
        [(1, 1)] false (5, 5) (6, 6) (0, 0) = false := by
  decide

/-! ### Claim C3 -/

/-- Claim C3 (counterexample).  An Assimilator attempt whose target tile IS
the gas tile (5, 5) nevertheless fails when a building already stands on the
gas tile — refuting "the attempt succeeds if and only if the target tile
equals the current gas-resource tile". -/
theorem c3_occupied_gas_counterexample :
    building_allowed Building.assimilator none [(5, 5)] false
      (5, 5) (6, 6) (5, 5) = false := by
  decide

/-- Claim C3 (amended).  For an Assimilator attempt (whose dependency is
always `None`, as `build_dependencies` yields): the attempt fails at every
tile other than the gas tile regardless of resources, and at the gas tile it
succeeds if and only if resources are sufficient and the gas tile is not
already occupied by a building. -/
theorem c3_assimilator_placement (dependency : Option Building)
    (bp : List Coord) (insufficient : Bool) (gasPos mineralsPos loc : Coord)
    (hdep : dependency = none) :
    building_allowed Building.assimilator dependency bp insufficient
        gasPos mineralsPos loc = true
      ↔ loc = gasPos ∧ insufficient = false ∧ loc ∉ bp := by
  subst hdep
  unfold building_allowed
  by_cases hi : insufficient <;> by_cases hm : loc ∈ bp <;>
    by_cases hg : loc = gasPos <;> simp [hi, hm, hg]

/-- Claim C3 (witness): the amended statement evaluated at a concrete
attempt on an unoccupied gas tile with sufficient resources. -/
theorem c3_assimilator_placement_witness :
    building_allowed Building.assimilator none [] false
        (5, 5) (6, 6) (5, 5) = true
      ↔ ((5, 5) : Coord) = (5, 5) ∧ false = false
          ∧ ((5, 5) : Coord) ∉ ([] : List Coord) :=
  c3_assimilator_placement none [] false (5, 5) (6, 6) (5, 5) rfl

/-! ### Claim C2 -/

/-- Claim C2 (counterexample).  In evaluation mode, a step whose compound
action is incomplete (`is_op()` false) DOES decrement `time_remaining`
(from 5 to 4 here, by the `elif self.evaluating` branch of
`srti_generator`), refuting the claim that no such step decrements it in
evaluation mode as well as in training mode. -/
theorem c2_evaluating_decrement_counterexample :
    (srtiStep true sampleCfg sampleInput false sampleState).timeRemaining = 4
    ∧ sampleState.timeRemaining = 5 := by
  constructor <;> decide

/-- Claim C2 (amended).  A step whose decoded compound action is incomplete
never advances the turn simulator: `building_positions`, `resources`, worker
positions and assignments are all unchanged.  In training mode the whole
state is unchanged — but in evaluation mode `time_remaining` is decremented
by exactly one. -/
theorem c2_incomplete_action_no_advance (evaluating : Bool) (cfg : Cfg)
    (inp : TickInput) (isOp : Bool) (s : SimState) (h : isOp = false) :
    (srtiStep evaluating cfg inp isOp s).buildings = s.buildings
    ∧ (srtiStep evaluating cfg inp isOp s).resources = s.resources
    ∧ (srtiStep evaluating cfg inp isOp s).assignments = s.assignments
    ∧ (srtiStep evaluating cfg inp isOp s).wpos = s.wpos
    ∧ (srtiStep evaluating cfg inp isOp s).timeRemaining
        = (if evaluating then s.timeRemaining - 1 else s.timeRemaining) := by
  subst h
  cases evaluating <;> simp [srtiStep]

/-- Claim C2 (witness): the amended statement evaluated at a concrete
incomplete step in evaluation mode. -/
theorem c2_incomplete_action_no_advance_witness :
    (srtiStep true sampleCfg sampleInput false sampleState).buildings
        = sampleState.buildings
    ∧ (srtiStep true sampleCfg sampleInput false sampleState).resources
        = sampleState.resources
    ∧ (srtiStep true sampleCfg sampleInput false sampleState).assignments
        = sampleState.assignments
    ∧ (srtiStep true sampleCfg sampleInput false sampleState).wpos
        = sampleState.wpos
    ∧ (srtiStep true sampleCfg sampleInput false sampleState).timeRemaining
        = (if true then sampleState.timeRemaining - 1
           else sampleState.timeRemaining) :=
  c2_incomplete_action_no_advance true sampleCfg sampleInput false sampleState rfl

/-! ### Claim C7 -/

/-- Any single failed admission condition makes `building_allowed` reject
the attempt. -/
theorem building_allowed_eq_false (b : Building) (dep : Option Building)
    (bp : List Coord) (insuff : Bool) (g m loc : Coord)
    (h : insuff = true ∨ loc ∈ bp ∨ dep ≠ none
      ∨ (b = Building.assimilator ∧ loc ≠ g)
      ∨ (b ≠ Building.assimilator ∧ (loc = g ∨ loc = m))) :
    building_allowed b dep bp insuff g m loc = false := by
  unfold building_allowed
  rcases h with h | h | h | ⟨h1, h2⟩ | ⟨h1, h2⟩
  · simp [h]
  · simp [h]
  · cases dep with
    | none => exact absurd rfl h
    | some d => simp
  · by_cases hi : insuff <;> by_cases hm : loc ∈ bp <;> simp [hi, hm, h1, h2]
  · by_cases hi : insuff <;> by_cases hm : loc ∈ bp <;>
      cases dep <;> rcases h2 with h2 | h2 <;> simp [hi, hm, h1, h2]

/-- A gather assignment never resolves to a `Building` action. -/
theorem action_gather_move (r : Resource) (cur : Coord) (rpos : Resource → Coord)
    (nx : List Coord) :
    ∃ d, (Assignment.gather r).action cur rpos nx = WorkerAction.move d := by
  unfold Assignment.action
  by_cases h : cur = rpos r <;> simp [h]

/-- Claim C7.  A construction attempt (a worker whose assignment is a
`BuildOrder` and who stands at its target location) that fails any admission
condition — insufficient resources, occupied target tile, non-`None` (in
particular unmet) dependency, or wrong Assimilator placement — is dropped
silently: that worker's resolution returns the state completely unchanged
(`building_positions`, `resources`, positions and assignments), so the same
attempt is resolved again from the persisting assignment on the next tick. -/
theorem c7_failed_build_is_noop (cfg : Cfg) (nexusPositions : List Coord)
    (s : SimState) (w : Worker) (b : Building) (loc : Coord)
    (ha : s.assignments w = Assignment.buildOrder b loc) (hw : s.wpos w = loc)
    (hfail :
      insufficientFor cfg.cost s.resources b = true
      ∨ loc ∈ s.buildings.map Prod.fst
      ∨ (∃ d, cfg.deps b = some d ∧ d ∉ s.buildings.map Prod.snd)
      ∨ (b = Building.assimilator ∧ loc ≠ cfg.rpos Resource.gas)
      ∨ (b ≠ Building.assimilator
          ∧ (loc = cfg.rpos Resource.gas ∨ loc = cfg.rpos Resource.minerals))) :
    resolveWorker cfg nexusPositions s w = s := by
  have hallow : building_allowed b (cfg.deps b) (s.buildings.map Prod.fst)
      (insufficientFor cfg.cost s.resources b)
      (cfg.rpos Resource.gas) (cfg.rpos Resource.minerals) loc = false := by
    apply building_allowed_eq_false
    rcases hfail with h | h | ⟨d, hd, _⟩ | h | h
    · exact Or.inl h
    · exact Or.inr (Or.inl h)
    · exact Or.inr (Or.inr (Or.inl (by simp [hd])))
    · exact Or.inr (Or.inr (Or.inr (Or.inl h)))
    · exact Or.inr (Or.inr (Or.inr (Or.inr h)))
  unfold resolveWorker
  rw [hw, ha]
  simp [Assignment.action, assignmentLocation, hallow]

/-- A sample state whose workers hold a build order for `other 0` at the
origin, with empty resources (so the attempt is unaffordable under
`sampleCfg`'s unit costs). -/
def buildOrderState : SimState :=
  ⟨[((3, 3), Building.nexus)], fun _ => (0, 0), fun _ => 0,
    fun _ => Assignment.buildOrder (Building.other 0) (0, 0), 0, 5⟩

/-- Claim C7 (witness): the statement evaluated at a concrete unaffordable
attempt. -/
theorem c7_failed_build_is_noop_witness :
    resolveWorker sampleCfg [(3, 3)] buildOrderState Worker.w1 = buildOrderState :=
  c7_failed_build_is_noop sampleCfg [(3, 3)] buildOrderState Worker.w1
    (Building.other 0) (0, 0) rfl rfl (Or.inl (by decide))

/-! ### Claim C8 -/

/-- Claim C8.  For a worker whose resolved per-tick action is a `Movement`:
if the movement lands the worker on a Nexus tile, every resource the worker
was gathering from its pre-move tile (its position equals the worker's
pre-move position; for gas an Assimilator must stand there) has its count
increased by exactly one, and every other resource count is unchanged; a
movement that does not land on a Nexus changes no resource count. -/
theorem c8_movement_effect (cfg : Cfg) (npos : List Coord) (s : SimState)
    (w : Worker) (d : Int × Int)
    (hmove : (s.assignments w).action (s.wpos w) cfg.rpos npos
        = WorkerAction.move d) :
    (∀ r : Resource,
        lookupB s.buildings ((s.wpos w).1 + d.1, (s.wpos w).2 + d.2)
            = some Building.nexus →
        gathered_resource s.buildings cfg.rpos r (s.wpos w) = true →
        (resolveWorker cfg npos s w).resources r = s.resources r + 1)
    ∧ (∀ r : Resource,
        lookupB s.buildings ((s.wpos w).1 + d.1, (s.wpos w).2 + d.2)
            = some Building.nexus →
        gathered_resource s.buildings cfg.rpos r (s.wpos w) = false →
        (resolveWorker cfg npos s w).resources r = s.resources r)
    ∧ (lookupB s.buildings ((s.wpos w).1 + d.1, (s.wpos w).2 + d.2)
            ≠ some Building.nexus →
        (resolveWorker cfg npos s w).resources = s.resources) := by
  simp only [resolveWorker, hmove]
  refine ⟨?_, ?_, ?_⟩
  · intro r hnex hg
    simp [hnex, hg]
  · intro r hnex hg
    simp [hnex, hg]
  · intro hnex
    simp [hnex]

/-- The configuration of the concrete deposit scenario: minerals at (0, 1),
gas at (1, 0). -/
def gatherCfg : Cfg :=
  ⟨fun _ _ => 1, fun _ => none, [],
    fun r => match r with | Resource.minerals => (0, 1) | Resource.gas => (1, 0), 0⟩

/-- The concrete deposit scenario: a Nexus at (0, 2), all workers standing
on the minerals tile (0, 1) gathering minerals. -/
def gatherState : SimState :=
  ⟨[((0, 2), Building.nexus)], fun _ => (0, 1), fun _ => 0,
    fun _ => Assignment.gather Resource.minerals, 0, 5⟩

/-- Claim C8 (witness): in the concrete deposit scenario the worker steps
from the minerals tile onto the Nexus and the minerals count increases by
exactly one. -/
theorem c8_movement_effect_witness :
    (resolveWorker gatherCfg [(0, 2)] gatherState Worker.w1).resources
        Resource.minerals
      = gatherState.resources Resource.minerals + 1 :=
  (c8_movement_effect gatherCfg [(0, 2)] gatherState Worker.w1 (0, 1)
      (by decide)).1 Resource.minerals (by decide) (by decide)

/-! ### Claim C6: monotonicity of the standing-building multiset -/

theorem countB_append (b : Building) (l1 l2 : List Building) :
    countB b (l1 ++ l2) = countB b l1 + countB b l2 := by
  induction l1 with
  | nil => simp [countB]
  | cons x xs ih => simp [countB, ih, Nat.add_assoc]

/-- Inserting at a fresh key appends (Python dict assignment). -/
theorem insertB_not_mem (m : List (Coord × Building)) (c : Coord) (b : Building)
    (h : c ∉ m.map Prod.fst) :
    insertB m c b = m ++ [(c, b)] := by
  induction m with
  | nil => rfl
  | cons p ps ih =>
      have h1 : ¬ (p.1 = c) := fun hc => h (by simp [hc])
      have h2 : c ∉ ps.map Prod.fst := fun hc => h (by simp [hc])
      simp [insertB, h1, ih h2]

/-- An admitted attempt's target tile is unoccupied. -/
theorem building_allowed_true_not_occupied (b : Building) (dep : Option Building)
    (bp : List Coord) (insuff : Bool) (g m loc : Coord)
    (h : building_allowed b dep bp insuff g m loc = true) : loc ∉ bp := by
  intro hmem
  rw [building_allowed_eq_false b dep bp insuff g m loc (Or.inr (Or.inl hmem))] at h
  exact Bool.false_ne_true h

/-- A `Building` worker action can only arise from a `BuildOrder` whose
target location is the worker's current position. -/
theorem action_build_inv (a : Assignment) (cur : Coord) (rpos : Resource → Coord)
    (nx : List Coord) (b : Building)
    (h : a.action cur rpos nx = WorkerAction.build b) :
    a = Assignment.buildOrder b cur := by
  cases a with
  | gather r =>
      rcases action_gather_move r cur rpos nx with ⟨d, hd⟩
      rw [hd] at h
      exact absurd h (by simp)
  | buildOrder b' l =>
      unfold Assignment.action at h
      by_cases hc : cur = l
      · subst hc
        simp at h
        rw [h]
      · simp [hc] at h

theorem resolveWorker_count_le (cfg : Cfg) (np : List Coord) (s : SimState)
    (w : Worker) (b : Building) :
    countB b (s.buildings.map Prod.snd)
      ≤ countB b ((resolveWorker cfg np s w).buildings.map Prod.snd) := by
  rcases hact : (s.assignments w).action (s.wpos w) cfg.rpos np with d | b'
  · simp only [resolveWorker, hact]
    by_cases hnex : lookupB s.buildings ((s.wpos w).1 + d.1, (s.wpos w).2 + d.2)
        = some Building.nexus
    · simp [hnex]
    · simp [hnex]
  · have ha : s.assignments w = Assignment.buildOrder b' (s.wpos w) :=
      action_build_inv _ _ _ _ _ hact
    simp only [resolveWorker, hact]
    by_cases hallow : building_allowed b' (cfg.deps b') (s.buildings.map Prod.fst)
        (insufficientFor cfg.cost s.resources b')
        (cfg.rpos Resource.gas) (cfg.rpos Resource.minerals)
        (assignmentLocation (s.assignments w) (s.wpos w)) = true
    · have hnm : s.wpos w ∉ s.buildings.map Prod.fst := by
        have hx := building_allowed_true_not_occupied _ _ _ _ _ _ _ hallow
        rw [ha] at hx
        exact hx
      simp [hallow, insertB_not_mem _ _ _ hnm, countB_append]
    · simp [hallow]

theorem foldl_resolve_count_le (cfg : Cfg) (np : List Coord) (ws : List Worker)
    (s : SimState) (b : Building) :
    countB b (s.buildings.map Prod.snd)
      ≤ countB b ((ws.foldl (resolveWorker cfg np) s).buildings.map Prod.snd) := by
  induction ws generalizing s with
  | nil => simp
  | cons w ws ih =>
      simp only [List.foldl_cons]
      exact le_trans (resolveWorker_count_le cfg np s w b) (ih _)

/-- With destruction probability zero, nonnegative uniform draws destroy
nothing. -/
theorem destroyStep_zero (draw : Coord → ℚ) (hd : ∀ c, 0 ≤ draw c)
    (m : List (Coord × Building)) : destroyStep 0 draw m = m := by
  induction m with
  | nil => rfl
  | cons cb rest ih =>
      have hno : ¬ (draw cb.1 < 0 ∧ cb.2 ≠ Building.nexus) := by
        rintro ⟨h1, _⟩
        exact absurd h1 (not_lt.mpr (hd _))
      simp [destroyStep, hno, ih]

theorem tick_count_le (cfg : Cfg) (hp : cfg.destroyProb = 0) (inp : TickInput)
    (hd : ∀ c, 0 ≤ inp.destroyDraw c) (s : SimState) (b : Building) :
    countB b (s.buildings.map Prod.snd)
      ≤ countB b ((tick cfg inp s).buildings.map Prod.snd) := by
  have heq : (tick cfg inp s).buildings
      = destroyStep cfg.destroyProb inp.destroyDraw
          (resolveAll cfg (applyAction inp.act s)).buildings := rfl
  rw [heq, hp, destroyStep_zero _ hd]
  exact foldl_resolve_count_le cfg _ _ (applyAction inp.act s) b

theorem successOf_mono (required : List Building) (m1 m2 : List (Coord × Building))
    (h : ∀ b, countB b (m1.map Prod.snd) ≤ countB b (m2.map Prod.snd))
    (hs : successOf required m1 = true) : successOf required m2 = true := by
  unfold successOf at hs ⊢
  rw [List.all_eq_true] at hs ⊢
  intro b hb
  have hb1 := hs b hb
  rw [decide_eq_true_iff] at hb1 ⊢
  exact le_trans hb1 (h b)

/-- Claim C6.  With `destroy_building_prob = 0` (and the uniform draws
nonnegative, as `random()` draws are), once the tick state's success flag —
the multiset of required buildings minus the standing buildings is empty —
is true, it remains true after any further sequence of ticks: buildings are
never removed, so required buildings persist. -/
theorem c6_success_monotone (cfg : Cfg) (hp : cfg.destroyProb = 0)
    (inputs : List TickInput)
    (hdraws : ∀ inp ∈ inputs, ∀ c, 0 ≤ inp.destroyDraw c)
    (s : SimState) (hs : successOf cfg.required s.buildings = true) :
    successOf cfg.required (runSim cfg s inputs).buildings = true := by
  induction inputs generalizing s with
  | nil => exact hs
  | cons i is ih =>
      have hd : ∀ c, 0 ≤ i.destroyDraw c := hdraws i (by simp)
      have hstep := successOf_mono cfg.required s.buildings (tick cfg i s).buildings
        (fun b => tick_count_le cfg hp i hd s b) hs
      exact ih (fun inp hin c => hdraws inp (by simp [hin]) c) _ hstep

/-- A configuration requiring one Nexus, with no destruction. -/
def nexusRequiredCfg : Cfg :=
  ⟨fun _ _ => 1, fun _ => none, [Building.nexus], fun _ => (9, 9), 0⟩

/-- Claim C6 (witness): the success flag (true in `sampleState`, whose Nexus
is the one required building) stays true across a concrete tick. -/
theorem c6_success_monotone_witness :
    successOf nexusRequiredCfg.required
      (runSim nexusRequiredCfg sampleState [sampleInput]).buildings = true :=
  c6_success_monotone nexusRequiredCfg rfl [sampleInput]
    (by
      intro inp hin c
      simp only [List.mem_singleton] at hin
      subst hin
      norm_num [sampleInput])
    sampleState (by decide)

/-! ### Claim C9: the time countdown -/

theorem resolveWorker_timeRemaining (cfg : Cfg) (np : List Coord) (s : SimState)
    (w : Worker) :
    (resolveWorker cfg np s w).timeRemaining = s.timeRemaining := by
  rcases hact : (s.assignments w).action (s.wpos w) cfg.rpos np with d | b' <;>
    simp only [resolveWorker, hact] <;> split <;> rfl

theorem foldl_resolve_timeRemaining (cfg : Cfg) (np : List Coord)
    (ws : List Worker) (s : SimState) :
    ((ws.foldl (resolveWorker cfg np) s)).timeRemaining = s.timeRemaining := by
  induction ws generalizing s with
  | nil => rfl
  | cons w ws ih =>
      simp only [List.foldl_cons]
      rw [ih, resolveWorker_timeRemaining]

/-- Every tick decrements `time_remaining` by exactly one. -/
theorem tick_timeRemaining (cfg : Cfg) (inp : TickInput) (s : SimState) :
    (tick cfg inp s).timeRemaining = s.timeRemaining - 1 := by
  have heq : (tick cfg inp s).timeRemaining
      = (resolveAll cfg (applyAction inp.act s)).timeRemaining := rfl
  rw [heq]
  unfold resolveAll
  rw [foldl_resolve_timeRemaining]
  rfl

theorem runSim_timeRemaining (cfg : Cfg) (s : SimState) (inputs : List TickInput) :
    (runSim cfg s inputs).timeRemaining = s.timeRemaining - inputs.length := by
  induction inputs generalizing s with
  | nil => simp [runSim]
  | cons i is ih =>
      simp only [runSim, List.length_cons]
      rw [ih, tick_timeRemaining]
      push_cast
      ring

/-- Claim C9.  With `destroy_building_prob = 0` (nonnegative draws) and a
required-building set that is never completed within the time budget: from a
snapshot with `time_remaining = T` and at least `T` further complete steps,
the done flag is false at every snapshot with positive `time_remaining`, and
becomes true — with success still false — exactly at the snapshot where
`time_remaining` reaches zero. -/
theorem c9_time_exhaustion (cfg : Cfg) (hp : cfg.destroyProb = 0)
    (inputs : List TickInput)
    (hdraws : ∀ inp ∈ inputs, ∀ c, 0 ≤ inp.destroyDraw c)
    (s0 : SimState) (T : Nat) (hT : s0.timeRemaining = T)
    (hlen : T ≤ inputs.length)
    (hnever : ∀ k : Nat, k ≤ T →
        successOf cfg.required (runSim cfg s0 (inputs.take k)).buildings = false) :
    (∀ k : Nat, k < T → doneOf cfg (runSim cfg s0 (inputs.take k)) = false)
    ∧ doneOf cfg (runSim cfg s0 (inputs.take T)) = true
    ∧ successOf cfg.required
        (runSim cfg s0 (inputs.take T)).buildings = false := by
  have htime : ∀ k : Nat, k ≤ T →
      (runSim cfg s0 (inputs.take k)).timeRemaining = (T : Int) - k := by
    intro k hk
    rw [runSim_timeRemaining, hT, List.length_take,
      Nat.min_eq_left (le_trans hk hlen)]
  refine ⟨?_, ?_, hnever T le_rfl⟩
  · intro k hk
    unfold doneOf
    rw [hnever k (le_of_lt hk), htime k (le_of_lt hk)]
    simp only [Bool.false_or, decide_eq_false_iff_not]
    omega
  · unfold doneOf
    rw [htime T le_rfl]
    simp

/-- A configuration whose single required building (`other 5`) is required
but never built in the witness run. -/
def deadlineCfg : Cfg :=
  ⟨fun _ _ => 1, fun _ => none, [Building.other 5], fun _ => (9, 9), 0⟩

/-- A state with two ticks remaining and all workers idly gathering. -/
def deadlineState : SimState :=
  ⟨[((0, 0), Building.nexus)], fun _ => (0, 0), fun _ => 0,
    fun _ => Assignment.gather Resource.minerals, 0, 2⟩

/-- Claim C9 (witness): a concrete two-tick episode that never completes its
required building terminates with done true and success false when
`time_remaining` reaches zero. -/
theorem c9_time_exhaustion_witness :
    doneOf deadlineCfg
        (runSim deadlineCfg deadlineState ([sampleInput, sampleInput].take 2)) = true
    ∧ successOf deadlineCfg.required
        (runSim deadlineCfg deadlineState
          ([sampleInput, sampleInput].take 2)).buildings = false :=
  ⟨(c9_time_exhaustion deadlineCfg rfl [sampleInput, sampleInput]
      (by
        intro inp hin c
        have h1 : inp = sampleInput := by simpa using hin
        subst h1
        norm_num [sampleInput])
      deadlineState 2 rfl (by decide) (by decide)).2.1,
    (c9_time_exhaustion deadlineCfg rfl [sampleInput, sampleInput]
      (by
        intro inp hin c
        have h1 : inp = sampleInput := by simpa using hin
        subst h1
        norm_num [sampleInput])
      deadlineState 2 rfl (by decide) (by decide)).2.2⟩

/-! ### Claim C10: a Nexus is always standing -/

/-- The building placements produced by `Env.place_objects` (src/env.py
lines 450-488), parametrized over the random draws: the Nexus coordinate,
the gas coordinate (an adjacent cell), the uniform draw admitting the
optional initial Assimilator, and the initially drawn buildings with their
positions.  The workers and the two resources go into `positions`, not
`building_positions`, and the minerals coordinate therefore does not appear;
an initial Assimilator is redirected to the gas cell
(`gas if isinstance(b, Assimilator) else p`). -/
def placedBuildings (nexusC gasC : Coord) (assimDraw assimProb : ℚ)
    (initial : List (Building × Coord)) : List (Coord × Building) :=
  [(nexusC, Building.nexus)]
    ++ (if assimDraw < assimProb then [(gasC, Building.assimilator)] else [])
    ++ initial.map fun bp =>
        (if bp.1 = Building.assimilator then gasC else bp.2, bp.1)

/-- `dict(...)` over the placement stream: later pairs overwrite earlier
ones. -/
def dictOf (l : List (Coord × Building)) : List (Coord × Building) :=
  l.foldl (fun m p => insertB m p.1 p.2) []

/-- The initial loop state of `state_generator` (src/env.py lines 596-616),
with the destruction step of the first loop iteration already applied (the
first yielded snapshot sits after it): all workers at the Nexus, no
resources, every worker assigned `initial_assignment()` = gather minerals,
pointer zero. -/
def initState (cfg : Cfg) (nexusC gasC : Coord) (assimDraw assimProb : ℚ)
    (initial : List (Building × Coord)) (tr : Int) (draw0 : Coord → ℚ) : SimState :=
  ⟨destroyStep cfg.destroyProb draw0
      (dictOf (placedBuildings nexusC gasC assimDraw assimProb initial)),
    fun _ => nexusC, fun _ => 0, fun _ => Assignment.gather Resource.minerals,
    0, tr⟩

/-- Probabilistic destruction never removes a Nexus entry. -/
theorem destroyStep_keeps_nexus (p : ℚ) (draw : Coord → ℚ)
    (m : List (Coord × Building)) (c : Coord)
    (h : (c, Building.nexus) ∈ m) :
    (c, Building.nexus) ∈ destroyStep p draw m := by
  induction m with
  | nil => cases h
  | cons cb rest ih =>
      rcases List.mem_cons.mp h with h1 | h1
      · subst h1
        have hcond : ¬ (draw (c, Building.nexus).1 < p
            ∧ (c, Building.nexus).2 ≠ Building.nexus) := by simp
        simp [destroyStep, hcond]
      · by_cases hcond : draw cb.1 < p ∧ cb.2 ≠ Building.nexus
        · simpa [destroyStep, hcond] using ih h1
        · simp only [destroyStep, if_neg hcond]
          exact List.mem_cons_of_mem _ (ih h1)

/-- Inserting at a different key preserves membership. -/
theorem insertB_mem_of_ne (m : List (Coord × Building)) (c : Coord) (b : Building)
    (c' : Coord) (b' : Building) (hne : c' ≠ c) (h : (c', b') ∈ m) :
    (c', b') ∈ insertB m c b := by
  induction m with
  | nil => cases h
  | cons p ps ih =>
      unfold insertB
      rcases List.mem_cons.mp h with h1 | h1
      · by_cases hc : p.1 = c
        · rw [← h1] at hc
          exact absurd hc hne
        · simp only [if_neg hc]
          rw [← h1]
          exact List.mem_cons_self _ _
      · by_cases hc : p.1 = c
        · simp only [if_pos hc]
          exact List.mem_cons_of_mem _ h1
        · simp only [if_neg hc]
          exact List.mem_cons_of_mem _ (ih h1)

theorem resolveWorker_keeps_nexus (cfg : Cfg) (np : List Coord) (s : SimState)
    (w : Worker) (c : Coord) (h : (c, Building.nexus) ∈ s.buildings) :
    (c, Building.nexus) ∈ (resolveWorker cfg np s w).buildings := by
  rcases hact : (s.assignments w).action (s.wpos w) cfg.rpos np with d | b'
  · simp only [resolveWorker, hact]
    split <;> exact h
  · have ha : s.assignments w = Assignment.buildOrder b' (s.wpos w) :=
      action_build_inv _ _ _ _ _ hact
    simp only [resolveWorker, hact]
    by_cases hallow : building_allowed b' (cfg.deps b') (s.buildings.map Prod.fst)
        (insufficientFor cfg.cost s.resources b')
        (cfg.rpos Resource.gas) (cfg.rpos Resource.minerals)
        (assignmentLocation (s.assignments w) (s.wpos w)) = true
    · have hnm : s.wpos w ∉ s.buildings.map Prod.fst := by
        have hx := building_allowed_true_not_occupied _ _ _ _ _ _ _ hallow
        rw [ha] at hx
        exact hx
      simp only [if_pos hallow]
      rw [insertB_not_mem _ _ _ hnm]
      exact List.mem_append_left _ h
    · simp only [if_neg hallow]
      exact h

theorem tick_keeps_nexus (cfg : Cfg) (inp : TickInput) (s : SimState) (c : Coord)
    (h : (c, Building.nexus) ∈ s.buildings) :
    (c, Building.nexus) ∈ (tick cfg inp s).buildings := by
  have heq : (tick cfg inp s).buildings
      = destroyStep cfg.destroyProb inp.destroyDraw
          (resolveAll cfg (applyAction inp.act s)).buildings := rfl
  rw [heq]
  apply destroyStep_keeps_nexus
  unfold resolveAll
  have hkeep : ∀ (ws : List Worker) (t : SimState), (c, Building.nexus) ∈ t.buildings →
      (c, Building.nexus) ∈ ((ws.foldl
        (resolveWorker cfg (nexusPositionsOf (applyAction inp.act s).buildings)) t)).buildings := by
    intro ws
    induction ws with
    | nil => intro t ht; exact ht
    | cons w ws ih =>
        intro t ht
        simp only [List.foldl_cons]
        exact ih _ (resolveWorker_keeps_nexus _ _ _ _ _ ht)
  exact hkeep _ _ h

theorem runSim_keeps_nexus (cfg : Cfg) (s : SimState) (inputs : List TickInput)
    (c : Coord) (h : (c, Building.nexus) ∈ s.buildings) :
    (c, Building.nexus) ∈ (runSim cfg s inputs).buildings := by
  induction inputs generalizing s with
  | nil => exact h
  | cons i is ih => exact ih _ (tick_keeps_nexus cfg i s c h)

theorem dictOf_keeps_nexus (l : List (Coord × Building))
    (m : List (Coord × Building)) (c : Coord)
    (hl : ∀ p ∈ l, p.1 ≠ c) (h : (c, Building.nexus) ∈ m) :
    (c, Building.nexus) ∈ l.foldl (fun acc p => insertB acc p.1 p.2) m := by
  induction l generalizing m with
  | nil => exact h
  | cons p ps ih =>
      simp only [List.foldl_cons]
      exact ih _ (fun q hq => hl q (List.mem_cons_of_mem _ hq))
        (insertB_mem_of_ne _ _ _ _ _
          (Ne.symm (hl p (List.mem_cons_self _ _))) h)

/-- The initial `building_positions` dict maps the Nexus coordinate to the
Nexus, given the placement constraints enforced by `place_objects`: the gas
cell is adjacent to (hence distinct from) the Nexus cell, and the rejection
loop re-draws initial building positions until none hits the
Nexus/minerals/gas cells. -/
theorem dictOf_placed_has_nexus (nexusC gasC : Coord) (assimDraw assimProb : ℚ)
    (initial : List (Building × Coord)) (hgn : gasC ≠ nexusC)
    (hinit : ∀ bp ∈ initial, bp.2 ≠ nexusC) :
    (nexusC, Building.nexus)
      ∈ dictOf (placedBuildings nexusC gasC assimDraw assimProb initial) := by
  unfold dictOf placedBuildings
  simp only [List.cons_append, List.foldl_cons, List.nil_append]
  apply dictOf_keeps_nexus
  · intro p hp
    rcases List.mem_append.mp hp with h1 | h1
    · by_cases hd : assimDraw < assimProb
      · rw [if_pos hd] at h1
        rcases List.mem_singleton.mp h1 with rfl
        exact hgn
      · rw [if_neg hd] at h1
        cases h1
    · rcases List.mem_map.mp h1 with ⟨bp, hbp, rfl⟩
      by_cases hb : bp.1 = Building.assimilator
      · simpa [hb] using hgn
      · simpa [hb] using hinit bp hbp
  · exact List.mem_singleton.mpr rfl

theorem nexusPositionsOf_ne_nil (m : List (Coord × Building)) (c : Coord)
    (h : (c, Building.nexus) ∈ m) : nexusPositionsOf m ≠ [] := by
  unfold nexusPositionsOf
  have hmem : (c, Building.nexus) ∈ m.filter fun cb => decide (cb.2 = Building.nexus) :=
    List.mem_filter.mpr ⟨h, by simp⟩
  exact List.ne_nil_of_mem (List.mem_map_of_mem Prod.fst hmem)

/-- Claim C10.  In every reachable tick state — any initial placement draws
satisfying `place_objects`'s own constraints, followed by any number of
ticks with any actions and destruction draws — at least one Nexus is
standing: the initial placement yields a Nexus, probabilistic destruction
spares Nexuses, and construction only adds buildings at unoccupied tiles.
Hence the per-tick nexus-position lookup is never empty. -/
theorem c10_nexus_invariant (cfg : Cfg) (nexusC gasC : Coord)
    (assimDraw assimProb : ℚ) (initial : List (Building × Coord)) (tr : Int)
    (draw0 : Coord → ℚ) (inputs : List TickInput)
    (hgn : gasC ≠ nexusC)
    (hinit : ∀ bp ∈ initial, bp.2 ≠ nexusC) :
    nexusPositionsOf
      (runSim cfg (initState cfg nexusC gasC assimDraw assimProb initial tr draw0)
        inputs).buildings ≠ [] := by
  apply nexusPositionsOf_ne_nil _ nexusC
  apply runSim_keeps_nexus
  have hinit0 : (nexusC, Building.nexus)
      ∈ (initState cfg nexusC gasC assimDraw assimProb initial tr draw0).buildings :=
    destroyStep_keeps_nexus _ _ _ _
      (dictOf_placed_has_nexus nexusC gasC assimDraw assimProb initial hgn hinit)
  exact hinit0

/-- Claim C10 (witness): a concrete placement (Nexus at the origin, gas at
(0, 1), initial Assimilator admitted) followed by one concrete tick still
has a standing Nexus. -/
theorem c10_nexus_invariant_witness :
    nexusPositionsOf
      (runSim sampleCfg (initState sampleCfg (0, 0) (0, 1) 0 1 [] 5 (fun _ => 1))
        [sampleInput]).buildings ≠ [] :=
  c10_nexus_invariant sampleCfg (0, 0) (0, 1) 0 1 [] 5 (fun _ => 1) [sampleInput]
    (by decide) (by intro bp h; cases h)

/-! ### Claim C4: `Env.build_dependencies` -/

/-- `itertools.zip_longest(buildings, dependencies)`, specialized to its use
in `build_dependencies`, where the dependency list is never longer than the
building list (its length is `min(max_depth, len(buildings))`): missing
dependencies are padded with `None`. -/
def zipPad : List Building → List (Option Building) → List (Building × Option Building)
  | [], _ => []
  | b :: bs, [] => (b, none) :: zipPad bs []
  | b :: bs, d :: ds => (b, d) :: zipPad bs ds

/-- `Env.build_dependencies` (src/env.py lines 149-159) as a function of the
shuffled non-Assimilator building list and the uniform draws: the dependency
entry at shuffle index `i` is `round(u_i * i) - 1`, read as "no dependency"
when negative and as the building at that index otherwise
(`buildings[int(np.round(...))]`).  `np.round` sends exact halves to the
nearest even integer while Mathlib's `round` sends them up; both stay inside
`[0, i]` for `u_i ∈ [0, 1)`, which is all the claim depends on.  The
Assimilator is yielded first, with no dependency. -/
def build_dependencies (maxDepth : Nat) (buildings : List Building)
    (draws : List ℚ) : List (Building × Option Building) :=
  (Building.assimilator, none) ::
    zipPad buildings
      ((List.range (min maxDepth buildings.length)).map fun i =>
        let d : Int := round (draws.getD i 0 * (i : ℚ)) - 1
        if d < 0 then none else some (buildings.getD d.toNat Building.assimilator))

/-- The zero-based position of a building in a list (the ranking used to
witness acyclicity). -/
def rankIn (l : List Building) (b : Building) : Nat :=
  match l with
  | [] => 0
  | x :: xs => if x = b then 0 else rankIn xs b + 1

theorem zipPad_getElem (bs : List Building) (ds : List (Option Building))
    (i : Nat) (b : Building) (od : Option Building)
    (h : (zipPad bs ds)[i]? = some (b, od)) :
    bs[i]? = some b ∧ od = (ds[i]?).getD none := by
  induction bs generalizing ds i with
  | nil => simp [zipPad] at h
  | cons x xs ih =>
      cases ds with
      | nil =>
          cases i with
          | zero =>
              simp [zipPad] at h
              simp [h.1, ← h.2]
          | succ i =>
              simp only [zipPad, List.getElem?_cons_succ] at h ⊢
              have hx := ih [] i h
              simpa using hx
      | cons d ds =>
          cases i with
          | zero =>
              simp [zipPad] at h
              simp [h.1, ← h.2]
          | succ i =>
              simp only [zipPad, List.getElem?_cons_succ] at h ⊢
              exact ih ds i h

theorem round_draw_bounds (u : ℚ) (i : Nat) (h0 : 0 ≤ u) (h1 : u < 1) :
    0 ≤ round (u * (i : ℚ)) ∧ round (u * (i : ℚ)) ≤ (i : Int) := by
  constructor
  · rw [round_eq]
    apply Int.floor_nonneg.mpr
    positivity
  · rw [round_eq]
    have hi0 : (0 : ℚ) ≤ (i : ℚ) := by positivity
    have hui : u * (i : ℚ) ≤ (i : ℚ) := by
      calc u * (i : ℚ) ≤ 1 * (i : ℚ) :=
            mul_le_mul_of_nonneg_right (le_of_lt h1) hi0
        _ = (i : ℚ) := one_mul _
    have hlt : u * (i : ℚ) + 1 / 2 < ((i : Int) + 1 : ℤ) := by
      push_cast
      linarith
    have := Int.floor_lt.mpr hlt
    omega

/-- In a duplicate-free list, `rankIn` recovers the index. -/
theorem rankIn_getElem (l : List Building) (hnd : l.Nodup) (i : Nat)
    (h : i < l.length) : rankIn l l[i] = i := by
  induction l generalizing i with
  | nil => simp at h
  | cons x xs ih =>
      cases i with
      | zero => simp [rankIn]
      | succ i =>
          have hx : x ∉ xs := (List.nodup_cons.mp hnd).1
          have hi : i < xs.length := by simpa using h
          have hne : ¬ (x = xs[i]) := fun he => hx (he ▸ List.getElem_mem hi)
          simp only [List.getElem_cons_succ, rankIn, if_neg hne]
          rw [ih (List.nodup_cons.mp hnd).2 i hi]

/-- Claim C4.  For every dependency map produced by `build_dependencies`
(any `max_depth`, any shuffled duplicate-free non-Assimilator building list,
any uniform draws in `[0, 1)`): the Assimilator is yielded first with
dependency `None`; the building at shuffle index `i` is yielded with a
dependency that is either `None` or a building of strictly smaller shuffle
index; and consequently the position in `Assimilator :: buildings` is a
ranking that strictly decreases along dependency pointers, so following them
terminates without revisiting any building — the map is an acyclic
forest. -/
theorem c4_dependency_forest (maxDepth : Nat) (buildings : List Building)
    (draws : List ℚ) (hnd : buildings.Nodup)
    (hassim : Building.assimilator ∉ buildings)
    (hdraws : ∀ u ∈ draws, 0 ≤ u ∧ u < 1) :
    (build_dependencies maxDepth buildings draws).head?
        = some (Building.assimilator, none)
    ∧ (∀ i : Nat, ∀ b : Building, ∀ od : Option Building,
        (build_dependencies maxDepth buildings draws)[i + 1]? = some (b, od) →
        buildings[i]? = some b
        ∧ (od = none
            ∨ ∃ j : Nat, j < i ∧ ∃ d : Building,
                buildings[j]? = some d ∧ od = some d))
    ∧ (∀ p ∈ build_dependencies maxDepth buildings draws,
        ∀ d : Building, p.2 = some d →
        rankIn (Building.assimilator :: buildings) d
          < rankIn (Building.assimilator :: buildings) p.1) := by
  have hmain : ∀ i : Nat, ∀ b : Building, ∀ od : Option Building,
      (build_dependencies maxDepth buildings draws)[i + 1]? = some (b, od) →
      buildings[i]? = some b
      ∧ (od = none
          ∨ ∃ j : Nat, j < i ∧ ∃ d : Building,
              buildings[j]? = some d ∧ od = some d) := by
    intro i b od h
    rw [build_dependencies, List.getElem?_cons_succ] at h
    have hz := zipPad_getElem _ _ _ _ _ h
    refine ⟨hz.1, ?_⟩
    set n := min maxDepth buildings.length with hn
    by_cases hi : i < n
    · rw [List.getElem?_map, List.getElem?_range hi] at hz
      set u : ℚ := draws.getD i 0 with hu
      have hu01 : 0 ≤ u ∧ u < 1 := by
        rcases hg : draws[i]? with _ | u0
        · rw [hu, List.getD_eq_getElem?_getD, hg]
          norm_num [Option.getD_none]
        · have hmem : u0 ∈ draws := List.getElem?_mem hg
          rw [hu, List.getD_eq_getElem?_getD, hg]
          exact hdraws u0 hmem
      have hb := round_draw_bounds u i hu01.1 hu01.2
      have hod2 : od = if round (u * (i : ℚ)) - 1 < 0 then none
          else some (buildings.getD (round (u * (i : ℚ)) - 1).toNat
            Building.assimilator) := hz.2
      by_cases hneg : round (u * (i : ℚ)) - 1 < 0
      · rw [if_pos hneg] at hod2
        exact Or.inl hod2
      · right
        rw [if_neg hneg] at hod2
        have hipos : 1 ≤ round (u * (i : ℚ)) := by omega
        have hjlt : (round (u * (i : ℚ)) - 1).toNat < i := by
          rcases Nat.eq_zero_or_pos i with hi0 | hi0
          · subst hi0
            simp only [Nat.cast_zero, mul_zero] at hipos
            rw [round_zero] at hipos
            omega
          · omega
        have hjlen : (round (u * (i : ℚ)) - 1).toNat < buildings.length := by
          have hlen : i < buildings.length := lt_of_lt_of_le hi (by omega)
          omega
        refine ⟨(round (u * (i : ℚ)) - 1).toNat, hjlt,
          buildings[(round (u * (i : ℚ)) - 1).toNat], ?_, ?_⟩
        · exact List.getElem?_eq_getElem hjlen
        · rw [hod2, List.getD_eq_getElem _ _ hjlen]
    · have hnone : (((List.range n).map fun k =>
          let d : Int := round (draws.getD k 0 * (k : ℚ)) - 1
          if d < 0 then none
          else some (buildings.getD d.toNat Building.assimilator))[i]?)
            = (none : Option (Option Building)) := by
        apply List.getElem?_eq_none
        simpa using le_of_not_lt hi
      rw [hnone] at hz
      left
      simpa using hz.2
  refine ⟨rfl, hmain, ?_⟩
  intro p hp d hd
  rcases List.mem_cons.mp hp with h1 | h1
  · rw [h1] at hd
    simp at hd
  · rcases List.mem_iff_getElem?.mp h1 with ⟨i, hi⟩
    have hip : (build_dependencies maxDepth buildings draws)[i + 1]? = some (p.1, p.2) := by
      rw [build_dependencies, List.getElem?_cons_succ]
      simpa using hi
    rcases hmain i p.1 p.2 hip with ⟨hb, hod⟩
    rcases hod with hod | ⟨j, hji, e, hj, hod⟩
    · rw [hod] at hd
      cases hd
    · rw [hod] at hd
      injection hd with he
      subst he
      rcases List.getElem?_eq_some.mp hb with ⟨hilen, hbi⟩
      rcases List.getElem?_eq_some.mp hj with ⟨hjlen, hbj⟩
      have hne1 : ¬ (Building.assimilator = p.1) := by
        intro he2
        apply hassim
        rw [he2, ← hbi]
        exact List.getElem_mem hilen
      have hne2 : ¬ (Building.assimilator = e) := by
        intro he2
        apply hassim
        rw [he2, ← hbj]
        exact List.getElem_mem hjlen
      simp only [rankIn, if_neg hne1, if_neg hne2]
      rw [← hbi, ← hbj, rankIn_getElem buildings hnd i hilen,
        rankIn_getElem buildings hnd j hjlen]
      omega

/-- Claim C4 (witness): the statement applied to two concrete buildings and
the concrete draws 1/2 and 3/4. -/
theorem c4_dependency_forest_witness :
    (build_dependencies 2 [Building.other 0, Building.other 1]
        [1 / 2, 3 / 4]).head? = some (Building.assimilator, none) :=
  (c4_dependency_forest 2 [Building.other 0, Building.other 1]
    [1 / 2, 3 / 4] (by decide) (by decide)
    (by
      intro u hu
      rcases List.mem_cons.mp hu with rfl | hu
      · norm_num
      · rcases List.mem_singleton.mp hu with rfl
        norm_num)).1

/-! ### Claim C5: `Env.build_lines` -/

/-- `instructions_for` (src/env.py lines 162-166): the full dependency chain
of a building, obtained by recursive lookup, ending with the building
itself.  The source recursion terminates because generated dependency maps
are acyclic (claim C4); the embedding carries explicit fuel, and every
result — whatever the fuel — is a nonempty chain ending with the requested
building, which is all the claim uses. -/
def instructions_for (deps : Building → Option Building) :
    Nat → Building → List Building
  | 0, b => [b]
  | fuel + 1, b =>
      match deps b with
      | none => [b]
      | some d => instructions_for deps fuel d ++ [b]

/-- `random_instructions_under` (src/env.py lines 168-196), with the random
choices supplied as an explicit candidate stream: a candidate is re-drawn
(skipped) when it is an Assimilator no longer in the choice set or when its
dependency chain exceeds the remaining budget `n`; an accepted candidate
emits its chain — every building but the last as a non-required line, the
last as a required line — and generation continues on the remaining budget,
excluding the Assimilator once one has been accepted.  Generation stops when
the budget reaches zero; an exhausted candidate stream also stops it (the
source would draw forever). -/
def random_instructions_under (deps : Building → Option Building) (fuel : Nat) :
    List Building → Nat → Bool → List Line
  | _, 0, _ => []
  | [], _ + 1, _ => []
  | b :: rest, n + 1, includeA =>
      if includeA = false ∧ b = Building.assimilator then
        random_instructions_under deps fuel rest (n + 1) includeA
      else
        let inst := instructions_for deps fuel b
        if inst.length ≤ n + 1 then
          (inst.dropLast.map fun i => Line.mk false i)
            ++ [Line.mk true (inst.getLastD b)]
            ++ random_instructions_under deps fuel rest (n + 1 - inst.length)
                (includeA && !(decide (b = Building.assimilator)))
        else
          random_instructions_under deps fuel rest (n + 1) includeA

/-- `Env.build_lines` (src/env.py lines 161-202): the sampled line count
`n_lines` and the random choices are supplied as inputs. -/
def build_lines (deps : Building → Option Building) (fuel : Nat)
    (nLines : Nat) (picks : List Building) : List Line :=
  random_instructions_under deps fuel picks nLines true

/-- A dependency chain always ends with the requested building. -/
theorem instructions_for_getLastD (deps : Building → Option Building)
    (fuel : Nat) (b x : Building) :
    (instructions_for deps fuel b).getLastD x = b := by
  cases fuel with
  | zero => rfl
  | succ fuel =>
      unfold instructions_for
      cases deps b with
      | none => rfl
      | some d => simp [List.getLastD_concat]

/-- A dependency chain is never empty. -/
theorem instructions_for_length_pos (deps : Building → Option Building)
    (fuel : Nat) (b : Building) :
    1 ≤ (instructions_for deps fuel b).length := by
  cases fuel with
  | zero => simp [instructions_for]
  | succ fuel =>
      unfold instructions_for
      cases deps b with
      | none => simp
      | some d => simp

/-- The generated lines never exceed the budget. -/
theorem random_instructions_length_le (deps : Building → Option Building)
    (fuel : Nat) (picks : List Building) (n : Nat) (includeA : Bool) :
    (random_instructions_under deps fuel picks n includeA).length ≤ n := by
  induction picks generalizing n includeA with
  | nil => cases n <;> simp [random_instructions_under]
  | cons b rest ih =>
      cases n with
      | zero => simp [random_instructions_under]
      | succ n =>
          unfold random_instructions_under
          by_cases hskip : includeA = false ∧ b = Building.assimilator
          · simpa [hskip] using ih (n + 1) includeA
          · simp only [if_neg hskip]
            set inst := instructions_for deps fuel b with hinst
            by_cases hfit : inst.length ≤ n + 1
            · simp only [if_pos hfit, List.length_append, List.length_map,
                List.length_cons, List.length_nil, List.length_dropLast]
              have hlp : 1 ≤ inst.length := by
                rw [hinst]
                exact instructions_for_length_pos deps fuel b
              have hrec := ih (n + 1 - inst.length)
                (includeA && !(decide (b = Building.assimilator)))
              omega
            · simpa [hfit] using ih (n + 1) includeA

/-- The required-Assimilator line predicate. -/
def isReqAssim (l : Line) : Bool :=
  l.required && decide (l.building = Building.assimilator)

/-- Once the Assimilator is out of the choice set, no required-Assimilator
line is ever emitted. -/
theorem random_instructions_no_assim (deps : Building → Option Building)
    (fuel : Nat) (picks : List Building) (n : Nat) (includeA : Bool)
    (hA : includeA = false) :
    (random_instructions_under deps fuel picks n includeA).countP isReqAssim = 0 := by
  induction picks generalizing n includeA with
  | nil => cases n <;> simp [random_instructions_under]
  | cons b rest ih =>
      cases n with
      | zero => simp [random_instructions_under]
      | succ n =>
          unfold random_instructions_under
          by_cases hskip : includeA = false ∧ b = Building.assimilator
          · simpa [hskip] using ih (n + 1) includeA hA
          · simp only [if_neg hskip]
            have hb : ¬ (b = Building.assimilator) := fun hc => hskip ⟨hA, hc⟩
            set inst := instructions_for deps fuel b with hinst
            have hlast : inst.getLastD b = b := by
              rw [hinst]
              exact instructions_for_getLastD deps fuel b b
            by_cases hfit : inst.length ≤ n + 1
            · simp only [if_pos hfit]
              rw [hlast]
              simp only [List.countP_append]
              have h1 : (inst.dropLast.map fun i => Line.mk false i).countP
                  isReqAssim = 0 := by
                rw [List.countP_eq_zero]
                intro l hl
                rcases List.mem_map.mp hl with ⟨i, _, rfl⟩
                simp [isReqAssim]
              have h2 : ([Line.mk true b]).countP isReqAssim = 0 := by
                simp [isReqAssim, List.countP_cons, hb]
              rw [h1, h2]
              simpa using ih (n + 1 - inst.length) _ (by simp [hA])
            · simpa [hfit] using ih (n + 1) includeA hA

/-- At most one required-Assimilator line is emitted. -/
theorem random_instructions_assim_le_one (deps : Building → Option Building)
    (fuel : Nat) (picks : List Building) (n : Nat) (includeA : Bool) :
    (random_instructions_under deps fuel picks n includeA).countP isReqAssim ≤ 1 := by
  induction picks generalizing n includeA with
  | nil => cases n <;> simp [random_instructions_under]
  | cons b rest ih =>
      cases n with
      | zero => simp [random_instructions_under]
      | succ n =>
          unfold random_instructions_under
          by_cases hskip : includeA = false ∧ b = Building.assimilator
          · simpa [hskip] using ih (n + 1) includeA
          · simp only [if_neg hskip]
            set inst := instructions_for deps fuel b with hinst
            have hlast : inst.getLastD b = b := by
              rw [hinst]
              exact instructions_for_getLastD deps fuel b b
            by_cases hfit : inst.length ≤ n + 1
            · simp only [if_pos hfit]
              rw [hlast]
              simp only [List.countP_append]
              have h1 : (inst.dropLast.map fun i => Line.mk false i).countP
                  isReqAssim = 0 := by
                rw [List.countP_eq_zero]
                intro l hl
                rcases List.mem_map.mp hl with ⟨i, _, rfl⟩
                simp [isReqAssim]
              by_cases hb : b = Building.assimilator
              · have h2 : ([Line.mk true b]).countP isReqAssim = 1 := by
                  simp [isReqAssim, List.countP_cons, hb]
                have h3 : (random_instructions_under deps fuel rest
                    (n + 1 - inst.length)
                    (includeA && !(decide (b = Building.assimilator)))).countP
                      isReqAssim = 0 :=
                  random_instructions_no_assim deps fuel rest _ _ (by simp [hb])
                rw [h1, h2, h3]
              · have h2 : ([Line.mk true b]).countP isReqAssim = 0 := by
                  simp [isReqAssim, List.countP_cons, hb]
                rw [h1, h2]
                simpa using ih (n + 1 - inst.length)
                  (includeA && !(decide (b = Building.assimilator)))
            · simpa [hfit] using ih (n + 1) includeA

/-- Claim C5.  For every line list produced by `build_lines` over any
dependency map and any candidate stream, given a sampled line count that is
positive and at most `max_lines`: the number of emitted lines is at most
`max_lines` (each chosen chain is accepted only if it fits the remaining
budget, retried otherwise, never truncated), and at most one emitted line
has `required = True` and `building = Assimilator`. -/
theorem c5_line_budget (deps : Building → Option Building) (fuel : Nat)
    (nLines maxLines : Nat) (picks : List Building)
    (hpos : 0 < nLines) (hmax : nLines ≤ maxLines) :
    (build_lines deps fuel nLines picks).length ≤ maxLines
    ∧ (build_lines deps fuel nLines picks).countP isReqAssim ≤ 1 := by
  constructor
  · exact le_trans (random_instructions_length_le deps fuel picks nLines true) hmax
  · exact random_instructions_assim_le_one deps fuel picks nLines true

/-- The concrete dependency map used by the C5 witness: `other 1` depends on
`other 0`. -/
def chainDeps : Building → Option Building
  | Building.other 1 => some (Building.other 0)
  | _ => none

/-- Claim C5 (witness): the statement applied to a concrete dependency map,
budget 2 out of 3 allowed lines, and a concrete candidate stream. -/
theorem c5_line_budget_witness :
    (build_lines chainDeps 3 2 [Building.other 1, Building.assimilator]).length ≤ 3
    ∧ (build_lines chainDeps 3 2
        [Building.other 1, Building.assimilator]).countP isReqAssim ≤ 1 :=
  c5_line_budget chainDeps 3 2 3 [Building.other 1, Building.assimilator]
    (by decide) (by decide)

end PpoEnv
